import Mathlib

/-!
# Verification of the `traders` finite state machine engine

A shallow embedding of `src/traders/fsm.py` (classes `State`, `Transition`,
`FiniteStateMachine`) together with proofs about the claims of the
specification.

Modelling choices, mirroring Python semantics:

* State instances are heap objects with identity.  A `StateId` is the object
  identity (Python `id` / reference); a `Heap δ` maps every identity to the
  object currently stored there.  `δ` is the type of the consumer-defined
  mutable instance data (for example a counter).
* `State` declares no `__eq__`, so Python `==` between state instances is
  identity comparison; we compare `StateId`s.
* Event tokens in the repository are strings compared by value.
* The `while True` loop of `FiniteStateMachine.run` need not terminate, so the
  embedding is fuel-indexed: `none` means the fuel ran out before the loop
  ended.
* `run` and the `events` getter only read the machine object (`self.name`,
  `self.start_state`, `self._transitions` are never assigned); the embedding
  threads the machine value through these operations so that this frame
  property is a theorem rather than a typing convention.
-/

/-- Event tokens.  In the repository every event is a string, compared with
Python `==` (value equality). -/
abbrev Event := String

/-- The identity of a state object (Python object identity).  Two state
objects constructed separately have different identities even when their
names and data coincide. -/
abbrev StateId := Nat

/-- A state object: the fields of a concrete `State` subclass instance.
`name` is the diagnostic name passed to `State.__init__`; `eventsFn` is the
`events` property (it may read the instance data); `runFn` is the `run`
method, which may mutate the instance's own data and returns one event. -/
structure StateObj (δ : Type) where
  name : String
  data : δ
  eventsFn : δ → List Event
  runFn : δ → Event × δ

/-- The heap: what object each identity currently refers to. -/
abbrev Heap (δ : Type) := StateId → StateObj δ

/-- `current_state.run()`: runs the state's `run` method, which returns an
event and replaces the instance's own data in the heap. -/
def stateRun {δ : Type} (h : Heap δ) (s : StateId) : Event × Heap δ :=
  let obj := h s
  let r := obj.runFn obj.data
  (r.1, fun i => if i = s then { obj with data := r.2 } else h i)

/-- A well-formed `Transition` object (both endpoints are `State` instances
and `update` is absent or callable).  The `update` function is Python code
that may mutate any state object reachable from its three arguments, so it is
embedded as a heap transformer. -/
structure Transition (δ : Type) where
  current_state : StateId
  event : Event
  next_state : StateId
  update : Option (Heap δ → Heap δ)

/-- `Transition.match`: `self.current_state == current_state and self.event ==
event`.  `State` defines no `__eq__`, so `==` between state instances is
identity comparison; `==` on the event tokens is string value equality. -/
def Transition.match' {δ : Type} (t : Transition δ) (current_state : StateId)
    (event : Event) : Bool :=
  if t.current_state == current_state && t.event == event then true else false

/-- `Transition.apply`: if `update` is not `None`, call it (for its side
effects on the heap); then return `next_state`. -/
def Transition.apply {δ : Type} (t : Transition δ) (h : Heap δ) :
    StateId × Heap δ :=
  match t.update with
  | none => (t.next_state, h)
  | some f => (t.next_state, f h)

/-- A `FiniteStateMachine` object: its `name` (used only for diagnostics), its
`start_state` and its ordered transition list `_transitions`. -/
structure FSM (δ : Type) where
  name : String
  start_state : StateId
  transitions : List (Transition δ)

/-- `FiniteStateMachine.transition`: scan `self._transitions` in insertion
order and return the first transition matching `(state, event)`, or `None`. -/
def FSM.transition {δ : Type} (m : FSM δ) (state : StateId) (event : Event) :
    Option (Transition δ) :=
  m.transitions.find? (fun t => t.match' state event)

/-- `FiniteStateMachine.add`: append a transition to the ordered list. -/
def FSM.add {δ : Type} (m : FSM δ) (t : Transition δ) : FSM δ :=
  { m with transitions := m.transitions ++ [t] }

/-- The state set built inside the `events` getter:
`set(chain((self.start_state,), currents, nexts))`.  Python's `set`
deduplicates by `__hash__`/`__eq__`, which for `State` instances is object
identity. -/
def FSM.statesOf {δ : Type} (m : FSM δ) : List StateId :=
  (m.start_state :: (m.transitions.map (fun t => t.current_state) ++
    m.transitions.map (fun t => t.next_state))).dedup

/-- The `events` property of `FiniteStateMachine`: for each state of
`statesOf` and each event that state declares, keep the event iff
`self.transition(state, event)` is `None`. -/
def FSM.events {δ : Type} (m : FSM δ) (h : Heap δ) : List Event :=
  (m.statesOf).flatMap
    (fun s => ((h s).eventsFn (h s).data).filter
      (fun e => (m.transition s e).isNone))

/-- The `events` property access as the caller sees it: the list is
recomputed from the machine and the heap on every access, and the getter
performs no assignment, so machine and heap are returned unchanged. -/
def FSM.eventsGet {δ : Type} (m : FSM δ) (h : Heap δ) :
    List Event × FSM δ × Heap δ :=
  (FSM.events m h, m, h)

/-- The loop body of `FiniteStateMachine.run`, fuel-indexed (the Python loop
is unbounded; `none` means the fuel was exhausted before the loop broke).
Each iteration runs the current state, looks the produced event up with
`self.transition`, and either returns the event (no match) or applies the
transition and continues from its `next_state`.  The machine value is
threaded through unchanged, as the method only reads `self`. -/
def runAux {δ : Type} (m : FSM δ) : Nat → StateId → Heap δ →
    Option (Event × FSM δ × Heap δ)
  | 0, _, _ => none
  | Nat.succ fuel, s, h =>
    match m.transition s (stateRun h s).1 with
    | none => some ((stateRun h s).1, m, (stateRun h s).2)
    | some t =>
      runAux m fuel (Transition.apply t (stateRun h s).2).1
        (Transition.apply t (stateRun h s).2).2

/-- `FiniteStateMachine.run`: start the loop at `self.start_state`. -/
def FSM.run {δ : Type} (m : FSM δ) (h : Heap δ) (fuel : Nat) :
    Option (Event × FSM δ × Heap δ) :=
  runAux m fuel m.start_state h

/-! ## The dynamically typed constructor of `Transition`

`Transition.__init__` receives arbitrary Python values and validates them with
`isinstance` / `callable` checks.  `PyVal` is a universe of the Python values
relevant here: `State` instances (references), `None`, integers, strings, and
functions. -/

/-- A Python value as passed to `Transition.__init__`. -/
inductive PyVal (δ : Type) where
  | stateRef (s : StateId)
  | noneVal
  | intVal (n : Int)
  | strVal (s : String)
  | funcVal (f : Heap δ → Heap δ)

/-- `isinstance(v, State)`. -/
def isinstanceState {δ : Type} : PyVal δ → Bool
  | PyVal.stateRef _ => true
  | _ => false

/-- `v is None`. -/
def isNoneVal {δ : Type} : PyVal δ → Bool
  | PyVal.noneVal => true
  | _ => false

/-- `callable(v)`: of the values in this universe only functions are
callable (`State` instances define no `__call__`). -/
def pyCallable {δ : Type} : PyVal δ → Bool
  | PyVal.funcVal _ => true
  | _ => false

/-- The object a successful `Transition.__init__` builds: the four arguments
are stored as given, with no conversion. -/
structure RawTransition (δ : Type) where
  current_state : PyVal δ
  event : PyVal δ
  next_state : PyVal δ
  update : PyVal δ

/-- `Transition.__init__`: raise `TypeError` when `current_state` is not a
`State` instance, when `next_state` is not a `State` instance, or when
`update` is not `None` and not callable; otherwise store the four arguments.
The `event` argument is never inspected. -/
def transitionInit {δ : Type} (current_state event next_state update : PyVal δ) :
    Except String (RawTransition δ) :=
  if !isinstanceState current_state then
    Except.error "TypeError: current_state must be an instance of State"
  else if !isinstanceState next_state then
    Except.error "TypeError: next_state must be an instance of State"
  else if !isNoneVal update && !pyCallable update then
    Except.error "TypeError: update must be callable or None"
  else
    Except.ok ⟨current_state, event, next_state, update⟩

/-! ## Diagnostic stringification -/

/-- `Transition.__str__`: `(current_state_name, event) -> next_state_name`,
where `str` of a state is its `name`. -/
def Transition.strT {δ : Type} (t : Transition δ) (h : Heap δ) : String :=
  "(" ++ (h t.current_state).name ++ ", " ++ t.event ++ ") -> " ++
    (h t.next_state).name

/-- `FiniteStateMachine.__str__` as the source has it: the method builds the
rendering `out` (name, start state, transitions, derived events), passes it to
`print`, and then falls off the end of the method body, returning `None`.
The first component is the text handed to `print`; the second is the method's
return value. -/
def FSM.strFSM {δ : Type} (m : FSM δ) (h : Heap δ) : String × Option String :=
  let out0 := "FSM: " ++ m.name ++ "\n"
  let out1 := out0 ++ "\n  Start state: " ++ (h m.start_state).name ++ "\n"
  let out2 := out1 ++ "\n  Transitions:\n" ++
    (m.transitions.foldl (fun acc t => acc ++ "    " ++ t.strT h ++ "\n") "")
  let out3 := out2 ++ "\n  Events:\n" ++
    ((m.events h).foldl (fun acc e => acc ++ "    " ++ e ++ "\n") "")
  (out3, none)

/-! ## Concrete consumer states, from `src/tests/test_fsm.py` -/

/-- Instance data of the test states: `CountingState` holds a counter,
`LimitingState` a value and a limit, `StartState` holds nothing. -/
inductive TData where
  | counting (value : Int)
  | limiting (value : Int) (limit : Int)
  | unitData
deriving DecidableEq

/-- `CountingState`: declares `('counted',)`; `run` increments `value` and
returns `'counted'`. -/
def countingObj : StateObj TData where
  name := "Counting"
  data := TData.counting 0
  eventsFn := fun _ => ["counted"]
  runFn := fun d =>
    match d with
    | TData.counting v => ("counted", TData.counting (v + 1))
    | d => ("counted", d)

/-- `LimitingState(0, 10)`: declares `('over', 'under')`; `run` returns
`'over'` when `value > limit`, else `'under'`, mutating nothing. -/
def limitingObj : StateObj TData where
  name := "Limiting"
  data := TData.limiting 0 10
  eventsFn := fun _ => ["over", "under"]
  runFn := fun d =>
    match d with
    | TData.limiting v lim => (if v > lim then "over" else "under", d)
    | d => ("under", d)

/-- The heap for the counting example: identity `0` is the `CountingState`,
identity `1` the `LimitingState`. -/
def countHeap : Heap TData :=
  fun i => if i = 1 then limitingObj else countingObj

/-- The `update` of the test: `limiting.value = counting.value` (copy the
counter of the state at identity `0` into the value of the state at
identity `1`). -/
def copyUpdate : Heap TData → Heap TData :=
  fun h i =>
    if i = 1 then
      match (h 0).data with
      | TData.counting v =>
        { h 1 with data :=
            match (h 1).data with
            | TData.limiting _ lim => TData.limiting v lim
            | d => d }
      | _ => h 1
    else h i

/-- The machine of `test_counting_fsm`: start at the counting state, with
transitions `(counting, 'counted') -> limiting` (with `copyUpdate`) and
`(limiting, 'under') -> counting`. -/
def countFSM : FSM TData where
  name := "Counting to 10"
  start_state := 0
  transitions :=
    [⟨0, "counted", 1, some copyUpdate⟩, ⟨1, "under", 0, none⟩]

/-- `StartState`: declares `('started',)`; `run` returns `'started'` and
mutates nothing. -/
def startObj : StateObj TData where
  name := "Starting"
  data := TData.unitData
  eventsFn := fun _ => ["started"]
  runFn := fun d => ("started", d)

/-- A heap whose every identity holds the `StartState` object. -/
def startHeap : Heap TData := fun _ => startObj

/-- The machine of `test_events`: `FiniteStateMachine('Start machine',
StartState())`, with no transitions. -/
def startFSM : FSM TData where
  name := "Start machine"
  start_state := 0
  transitions := []

/-- The heap after `StartState.run` has executed once at identity `0`. -/
def startHeapAfter : Heap TData :=
  fun i => if i = 0 then startObj else startHeap i

/-! ## The specification of the run loop

`RunsTo m s h e` is the iteration the specification describes, started at
current state `s` with heap `h`: run the current state to obtain an event;
if no transition matches, the machine's result is that event; otherwise apply
the matched transition (with its update side effect) and continue from its
`next_state`.  The result is thus the first event produced along the
iteration for which no transition matches. -/
inductive RunsTo {δ : Type} (m : FSM δ) : StateId → Heap δ → Event → Prop where
  | stop (s : StateId) (h : Heap δ) :
      m.transition s (stateRun h s).1 = none →
      RunsTo m s h (stateRun h s).1
  | step (s : StateId) (h : Heap δ) (t : Transition δ) (e : Event) :
      m.transition s (stateRun h s).1 = some t →
      RunsTo m t.next_state (Transition.apply t (stateRun h s).2).2 e →
      RunsTo m s h e

/-- `Transition.apply` always returns `next_state` as its first component. -/
theorem Transition.apply_fst {δ : Type} (t : Transition δ) (h : Heap δ) :
    (Transition.apply t h).1 = t.next_state := by
  cases hu : t.update <;> simp [Transition.apply, hu]

/-- The algorithm of the `events` getter, as the specification words it:
the set of states consisting of `start_state` plus every `current_state` and
every `next_state` of every transition, deduplicated by identity; then for
each such state and each event that state declares, the event is included
iff `transition_for(state, event)` is none. -/
def eventsSpec {δ : Type} (m : FSM δ) (h : Heap δ) : List Event :=
  ((m.start_state ::
      (m.transitions.map Transition.current_state ++
        m.transitions.map Transition.next_state)).dedup).flatMap
    (fun s => ((h s).eventsFn (h s).data).filter
      (fun e => Option.isNone (m.transition s e)))

/-! ## Helper lemmas -/

/-- Whenever `runAux` yields a result, that result realizes `RunsTo` from the
state and heap the loop was entered with. -/
theorem runAux_runsTo {δ : Type} (m : FSM δ) :
    ∀ (fuel : Nat) (s : StateId) (h : Heap δ) (e : Event) (m' : FSM δ)
      (h' : Heap δ), runAux m fuel s h = some (e, m', h') → RunsTo m s h e := by
  intro fuel
  induction fuel with
  | zero => intro s h e m' h' hr; simp [runAux] at hr
  | succ n ih =>
    intro s h e m' h' hr
    rw [runAux] at hr
    cases hm : m.transition s (stateRun h s).1 with
    | none =>
      rw [hm] at hr
      simp only [Option.some.injEq, Prod.mk.injEq] at hr
      obtain ⟨he, -, -⟩ := hr
      exact he ▸ RunsTo.stop s h hm
    | some t =>
      rw [hm] at hr
      exact RunsTo.step s h t e hm
        (Transition.apply_fst t (stateRun h s).2 ▸ ih _ _ _ _ _ hr)

/-- Whenever `runAux` yields a result, the machine component is the machine
the loop was entered with. -/
theorem runAux_machine {δ : Type} (m : FSM δ) :
    ∀ (fuel : Nat) (s : StateId) (h : Heap δ) (e : Event) (m' : FSM δ)
      (h' : Heap δ), runAux m fuel s h = some (e, m', h') → m' = m := by
  intro fuel
  induction fuel with
  | zero => intro s h e m' h' hr; simp [runAux] at hr
  | succ n ih =>
    intro s h e m' h' hr
    rw [runAux] at hr
    cases hm : m.transition s (stateRun h s).1 with
    | none =>
      rw [hm] at hr
      simp only [Option.some.injEq, Prod.mk.injEq] at hr
      obtain ⟨-, hm', -⟩ := hr
      exact hm'.symm
    | some t =>
      rw [hm] at hr
      exact ih _ _ _ _ _ hr

/-! ## Claims -/

/-- C1: `run()` starts with the current state equal to `start_state` and
repeats: run the current state to obtain an event; look the event up with
`transition_for`; if no transition matches, return that event; otherwise
apply the transition (invoking its update side effect) and make its
`next_state` the current state.  Whenever `run()` returns, the returned value
is the first event produced along this iteration for which no transition
matches. -/
theorem run_returns_first_unmatched {δ : Type} (m : FSM δ) (h : Heap δ)
    (fuel : Nat) (e : Event) (m' : FSM δ) (h' : Heap δ)
    (hr : FSM.run m h fuel = some (e, m', h')) :
    RunsTo m m.start_state h e :=
  runAux_runsTo m fuel m.start_state h e m' h' hr

/-- Witness for C1 at the one-state example machine. -/
theorem run_returns_first_unmatched_witness :
    RunsTo startFSM startFSM.start_state startHeap "started" :=
  run_returns_first_unmatched startFSM startHeap 1 "started" startFSM
    startHeapAfter rfl

/-- C2: the derived `events` of a machine equal the specified algorithm
(states: `start_state` plus all `current_state`s and `next_state`s,
deduplicated by identity; events: each state's declared events not consumed
by any transition); in particular, with zero transitions `events` is exactly
the start state's `events`. -/
theorem events_eq_spec {δ : Type} (m : FSM δ) (h : Heap δ) :
    FSM.events m h = eventsSpec m h ∧
      (m.transitions = [] →
        FSM.events m h = (h m.start_state).eventsFn (h m.start_state).data) := by
  constructor
  · rfl
  · intro hnil
    simp [FSM.events, FSM.statesOf, FSM.transition, hnil]

/-- Witness for C2 at the transition-free example machine. -/
theorem events_eq_spec_witness :
    FSM.events startFSM startHeap = eventsSpec startFSM startHeap ∧
      FSM.events startFSM startHeap =
        (startHeap startFSM.start_state).eventsFn
          (startHeap startFSM.start_state).data :=
  ⟨(events_eq_spec startFSM startHeap).1,
    (events_eq_spec startFSM startHeap).2 rfl⟩

/-- C3: for the composed counting example (counter start 0, limit 10), the
derived `events` is exactly `('over',)`, `run()` terminates returning
`'over'`, and afterwards the counting state's counter is 11. -/
theorem counting_fsm_behaviour :
    FSM.events countFSM countHeap = ["over"] ∧
      (FSM.run countFSM countHeap 100).map
        (fun r => (r.1, (r.2.2 0).data)) = some ("over", TData.counting 11) :=
  ⟨rfl, rfl⟩

/-- C4: `Transition.match(s, e)` is true iff `s` is identity-equal to the
transition's `current_state` and `e` is value-equal to its `event`; a state
with the same name but a different identity never matches, nor does the right
state with a different event. -/
theorem match_iff_identity {δ : Type} (t : Transition δ) (s : StateId)
    (e : Event) (h : Heap δ) :
    (t.match' s e = true ↔ s = t.current_state ∧ e = t.event) ∧
      ((h s).name = (h t.current_state).name → s ≠ t.current_state →
        t.match' s e = false) ∧
      (e ≠ t.event → t.match' t.current_state e = false) := by
  refine ⟨⟨fun hm => ?_, fun hse => ?_⟩, fun _ hne => ?_, fun hne => ?_⟩
  · simp only [Transition.match'] at hm
    split at hm
    · rename_i hcond
      simp only [Bool.and_eq_true, beq_iff_eq] at hcond
      exact ⟨hcond.1.symm, hcond.2.symm⟩
    · exact absurd hm (by simp)
  · obtain ⟨rfl, rfl⟩ := hse
    simp [Transition.match']
  · simp only [Transition.match']
    split
    · rename_i hcond
      simp only [Bool.and_eq_true, beq_iff_eq] at hcond
      exact absurd hcond.1.symm hne
    · rfl
  · simp only [Transition.match']
    split
    · rename_i hcond
      simp only [Bool.and_eq_true, beq_iff_eq] at hcond
      exact absurd hcond.2.symm hne
    · rfl

/-- Witness for C4: a distinct state identity with the same name does not
match. -/
theorem match_iff_identity_witness :
    Transition.match' (⟨0, "started", 1, none⟩ : Transition TData) 5
      "started" = false :=
  (match_iff_identity ⟨0, "started", 1, none⟩ 5 "started" startHeap).2.1
    rfl (by decide)

/-- C5: `transition_for` returns the first transition in insertion order
whose `match(state, event)` holds (`some t` iff `t` matches and every
earlier-added transition does not), and `none` iff no transition matches. -/
theorem transition_first_match {δ : Type} (m : FSM δ) (s : StateId)
    (e : Event) (t : Transition δ) :
    (m.transition s e = some t ↔
        t.match' s e = true ∧
          ∃ pre post, m.transitions = pre ++ t :: post ∧
            ∀ u ∈ pre, u.match' s e = false) ∧
      (m.transition s e = none ↔ ∀ u ∈ m.transitions, u.match' s e = false) := by
  constructor
  · rw [FSM.transition, List.find?_eq_some]
    simp
  · rw [FSM.transition, List.find?_eq_none]
    simp

/-- Witness for C5: in the counting machine no transition matches
`(limiting, 'over')`, and the `(counting, 'counted')` transition is found
first. -/
theorem transition_first_match_witness :
    FSM.transition countFSM 1 "over" = none :=
  (transition_first_match countFSM 1 "over" ⟨0, "", 0, none⟩).2.mpr
    (by decide)

/-- C6: `Transition.__init__` raises a `TypeError` iff `current_state` is not
a `State`, or `next_state` is not a `State`, or `update` is neither `None`
nor callable; for any well-formed triple with `update` absent or callable it
succeeds and stores its arguments, with no validation of the event token. -/
theorem transitionInit_ok_iff {δ : Type}
    (cs ev ns up : PyVal δ) :
    ((∃ msg, transitionInit cs ev ns up = Except.error msg) ↔
        (isinstanceState cs = false ∨ isinstanceState ns = false ∨
          (isNoneVal up = false ∧ pyCallable up = false))) ∧
      (isinstanceState cs = true → isinstanceState ns = true →
        (isNoneVal up = true ∨ pyCallable up = true) →
        transitionInit cs ev ns up = Except.ok ⟨cs, ev, ns, up⟩) := by
  constructor
  · cases cs <;> cases ns <;> cases up <;>
      simp [transitionInit, isinstanceState, isNoneVal, pyCallable]
  · intro hcs hns hup
    cases cs <;> cases ns <;> cases up <;>
      simp_all [transitionInit, isinstanceState, isNoneVal, pyCallable]

/-- Witness for C6: a well-formed construction with `update` absent
succeeds, storing the four arguments. -/
theorem transitionInit_ok_iff_witness :
    transitionInit (δ := TData) (PyVal.stateRef 0) (PyVal.strVal "started")
        (PyVal.stateRef 1) PyVal.noneVal =
      Except.ok ⟨PyVal.stateRef 0, PyVal.strVal "started", PyVal.stateRef 1,
        PyVal.noneVal⟩ :=
  (transitionInit_ok_iff (PyVal.stateRef 0) (PyVal.strVal "started")
      (PyVal.stateRef 1) PyVal.noneVal).2 rfl rfl (Or.inl rfl)

/-- C7 (code bug): `FiniteStateMachine.__str__` builds the human-readable
rendering (name, start state, transitions, derived events) but passes it to
`print` and returns `None` instead of returning the string: at the example
machine the built text is the full rendering while the method's return value
is `None`, so `str(machine)` raises `TypeError` rather than producing the
rendering. -/
theorem strFSM_prints_but_returns_none :
    FSM.strFSM startFSM startHeap =
      ("FSM: Start machine\n\n  Start state: Starting\n\n  Transitions:\n" ++
        "\n  Events:\n    started\n", none) := rfl

/-- C8: applying a transition whose `update` is `None` returns its
`next_state` and leaves the heap — hence every state's observable data —
completely unchanged. -/
theorem apply_none_update_frame {δ : Type} (t : Transition δ) (h : Heap δ)
    (hu : t.update = none) : Transition.apply t h = (t.next_state, h) := by
  simp [Transition.apply, hu]

/-- Witness for C8 at the `(limiting, 'under') -> counting` transition of the
example machine. -/
theorem apply_none_update_frame_witness :
    Transition.apply (⟨1, "under", 0, none⟩ : Transition TData) countHeap =
      (0, countHeap) :=
  apply_none_update_frame ⟨1, "under", 0, none⟩ countHeap rfl

/-- C9: reading the `events` property twice in succession with no `add` in
between yields equal multisets of event tokens: the access recomputes the
list but mutates neither the machine nor any state. -/
theorem eventsGet_idempotent {δ : Type} (m : FSM δ) (h : Heap δ) :
    (FSM.eventsGet m h).2 = (m, h) ∧
      Multiset.ofList (FSM.eventsGet m h).1 =
        Multiset.ofList
          (FSM.eventsGet (FSM.eventsGet m h).2.1 (FSM.eventsGet m h).2.2).1 :=
  ⟨rfl, rfl⟩

/-- C10: `run()` never modifies the machine's own structure: whenever it
returns, the machine's name, start state and transition list are those it
started with. -/
theorem run_preserves_machine {δ : Type} (m : FSM δ) (h : Heap δ)
    (fuel : Nat) (e : Event) (m' : FSM δ) (h' : Heap δ)
    (hr : FSM.run m h fuel = some (e, m', h')) :
    m'.name = m.name ∧ m'.start_state = m.start_state ∧
      m'.transitions = m.transitions := by
  have hmm : m' = m := runAux_machine m fuel m.start_state h e m' h' hr
  exact ⟨by rw [hmm], by rw [hmm], by rw [hmm]⟩

/-- Witness for C10 at the one-state example machine. -/
theorem run_preserves_machine_witness :
    startFSM.name = startFSM.name ∧
      startFSM.start_state = startFSM.start_state ∧
      startFSM.transitions = startFSM.transitions :=
  run_preserves_machine startFSM startHeap 1 "started" startFSM
    startHeapAfter rfl
